import Mathlib

/-!
Verification of the resilient HTTP request pipeline in
`packages/cli/utils/requests/requests.go` (package `requests`).

The Go code is shallowly embedded: pure helpers (`shouldRetry`, `backoff`,
`handleResponse`, header and query construction) become Lean functions, and
the retry loop of `doRequest` becomes a fuel-indexed recursion whose fuel
mirrors the loop bound `attempt <= maxRetries`.  Interaction with the
network (`client.Do`) is modelled by an oracle indexed by the attempt
number, and the deterministic pre-flight phase of `attemptRequest`
(`buildURL`, `buildBody`, `createRequest`, all pure functions of the call
arguments) by a single `Except` value that is the same on every attempt.
-/

namespace Requests

/-- Bytes of a Go string or byte slice, one natural number (0..255) per byte. -/
abbrev Bytes := List Nat

/-- Errors that can flow into `doRequest`'s retry loop.

The constructors record which Go error value is meant:
* `urlParseError`: the error returned by `url.Parse` inside `buildURL`.
  `url.Parse` fails with a non-nil `*url.Error` (net/url wraps the cause as
  `&Error{"parse", rawURL, err}`).
* `jsonMarshalError`: a failure of `json.Marshal` inside `buildBody`
  (e.g. `*json.UnsupportedTypeError`).
* `newRequestError`: a failure of `http.NewRequestWithContext` inside
  `createRequest` (a plain error value, e.g. for an invalid method).
* `transportError`: an error returned by `client.Do`; the `isNet` flag
  records whether `errors.As(err, &netErr)` with `netErr : net.Error`
  succeeds on it (for `client.Do` errors, which are `*url.Error` values,
  it does, but the flag keeps the model general).
* `readError`: a failure of `io.ReadAll` inside `handleResponse`; it is
  returned directly by `doRequest` and never reaches `shouldRetry`.
* `nilResponse`: `errors.New("nil response")` from `handleResponse`.
* `serverError`: `fmt.Errorf("server error: %v", resp.Status)`, the value
  stored in `lastErr` when a 5xx response is retried. -/
inductive GoError where
  | urlParseError (msg : String)
  | jsonMarshalError (msg : String)
  | newRequestError (msg : String)
  | transportError (isNet : Bool) (msg : String)
  | readError (msg : String)
  | nilResponse
  | serverError (statusLine : String)
  deriving DecidableEq, Repr

/-- Whether `errors.As(err, &netErr)` succeeds for `netErr : net.Error`.

`net.Error` is the interface `{ error; Timeout() bool; Temporary() bool }`.
A `*url.Error` implements it: net/url defines both `(*Error).Timeout` and
`(*Error).Temporary`.  Since `url.Parse` returns a `*url.Error` on failure,
a URL parse error is classified as a network error by this test.  JSON
marshalling errors and `http.NewRequest` errors carry neither method, so
the test fails for them. -/
def GoError.isNetError : GoError → Bool
  | .urlParseError _ => true
  | .transportError isNet _ => isNet
  | _ => false

/-- Decidable equality for `Except`, needed to derive it for structures
holding read outcomes. -/
instance {ε α : Type} [DecidableEq ε] [DecidableEq α] : DecidableEq (Except ε α) := fun
  | .error e, .error f => decidable_of_iff (e = f) (by simp)
  | .error _, .ok _ => isFalse (by simp)
  | .ok _, .error _ => isFalse (by simp)
  | .ok a, .ok b => decidable_of_iff (a = b) (by simp)

/-- The observable parts of an `*http.Response` used by `doRequest`:
`resp.StatusCode`, `resp.Status` (the status line string), `resp.Header`,
and the outcome of reading `resp.Body` with `io.ReadAll`. -/
structure GoResponse where
  statusCode : Int
  statusLine : String
  headers : List (String × List String)
  bodyRead : Except GoError Bytes
  deriving DecidableEq, Repr

/-- ANSI color constants from the source. -/
def ColorReset : String := "\x1b[0m"

/-- ANSI red. -/
def ColorRed : String := "\x1b[31m"

/-- ANSI green. -/
def ColorGreen : String := "\x1b[32m"

/-- ANSI yellow. -/
def ColorYellow : String := "\x1b[33m"

/-- ANSI blue. -/
def ColorBlue : String := "\x1b[34m"

/-- ANSI cyan. -/
def ColorCyan : String := "\x1b[36m"

/-- ANSI gray. -/
def ColorGray : String := "\x1b[90m"

/-- Model of `joinHeaderValues`: joins header values with ", ". -/
def joinHeaderValues : List String → String
  | [] => ""
  | [v] => v
  | v :: rest => v ++ ", " ++ joinHeaderValues rest

/-- Header formatting loop of `logResponse`: each response header is written
as `Cyan k Reset ": " join(v) "; "` into a buffer.  Go iterates the header
map in unspecified order; the model fixes the order of the assoc list. -/
def formatHeaders : List (String × List String) → String
  | [] => ""
  | (k, vs) :: rest =>
      ColorCyan ++ k ++ ColorReset ++ ": " ++ joinHeaderValues vs ++ "; " ++ formatHeaders rest

/-- Status color selection in `logResponse`. -/
def logStatusColor (code : Int) : String :=
  if 400 ≤ code ∧ code < 500 then ColorYellow
  else if 500 ≤ code then ColorRed
  else ColorGreen

/-- Body truncation in `logResponse`: bodies longer than 1000 bytes are cut
at 1000 bytes and a `...[truncated]` marker is appended. -/
def logBody (body : Bytes) : Bytes :=
  if body.length > 1000 then body.take 1000 ++ ("...[truncated]".data.map Char.toNat)
  else body

/-- One emitted debug log record of `logResponse`. -/
structure LogEntry where
  statusLine : String
  statusColor : String
  headersStr : String
  body : Bytes
  deriving DecidableEq, Repr

/-- Model of `logResponse`: emits one debug record when `options.Debug` is
set and the response is non-nil (it always is at the call site), otherwise
nothing. -/
def logResponse (resp : GoResponse) (body : Bytes) (debug : Bool) : List LogEntry :=
  if debug then
    [{ statusLine := resp.statusLine,
       statusColor := logStatusColor resp.statusCode,
       headersStr := formatHeaders resp.headers,
       body := logBody body }]
  else []

/-- Model of `shouldRetry(err, status, attempt, maxRetries)`.  Mirrors the
source: no retry once `attempt >= maxRetries`; a non-nil error is retried
iff `errors.As(err, &netErr)` succeeds; otherwise retry iff the status is
in `[500, 599]`. -/
def shouldRetry (err : Option GoError) (status : Int) (attempt maxRetries : Int) : Bool :=
  if attempt ≥ maxRetries then false
  else
    match err with
    | some e => e.isNetError
    | none => decide (500 ≤ status) && decide (status ≤ 599)

/-- Model of `backoff(attempt)`: the slept duration in milliseconds,
`time.Sleep(time.Duration(attempt+1) * 300 * time.Millisecond)`. -/
def backoff (attempt : Nat) : Nat := (attempt + 1) * 300

/-- Default timeout handling of `doRequest` (nanoseconds): a zero
`options.Timeout` becomes `10 * time.Second`. -/
def effectiveTimeout (timeout : Int) : Int :=
  if timeout = 0 then 10000000000 else timeout

/-- Model of `handleResponse`: a nil response is an error; otherwise the
result of `io.ReadAll(resp.Body)` together with `resp.StatusCode`.  The Go
function also returns the status code alongside a read error, but
`doRequest` discards it on that path, so the model folds the triple into an
`Except`. -/
def handleResponse : Option GoResponse → Except GoError (Bytes × Int)
  | none => .error .nilResponse
  | some resp =>
      match resp.bodyRead with
      | .error e => .error e
      | .ok body => .ok (body, resp.statusCode)

/-- Model of `attemptRequest` for one attempt.  `buildURL`, `buildBody` and
`createRequest` are pure functions of `(method, rawURL, options)`, so their
combined outcome is the same value `prep` on every attempt; when it
succeeds, `client.Do` runs and its outcome is given by the `transport`
oracle at the attempt index.  The boolean records whether `client.Do` was
actually invoked (an HTTP connection attempt). -/
def attemptRequest (prep : Except GoError Unit)
    (transport : Nat → Except GoError GoResponse) (attempt : Nat) :
    Except GoError GoResponse × Bool :=
  match prep with
  | .error e => (.error e, false)
  | .ok _ => (transport attempt, true)

/-- What `doRequest` returns to its caller, `([]byte, error)`:
* `ok body` is `return body, nil`;
* `err e` is an early `return nil, err` (raw error);
* `failedAfterRetries lastErr` is the post-loop
  `return nil, fmt.Errorf("request failed after retries: %w", lastErr)`,
  wrapping the current `lastErr` (possibly nil). -/
inductive ReqResult where
  | ok (body : Bytes)
  | err (e : GoError)
  | failedAfterRetries (lastErr : Option GoError)
  deriving DecidableEq, Repr

/-- Ghost observations of one `doRequest` run: loop iterations executed,
`client.Do` invocations (HTTP connection attempts), the slept backoff
durations in order (milliseconds), the debug log output, and the
status/body of the response the loop returned on (if any). -/
structure Trace where
  iterations : Nat
  doCalls : Nat
  backoffs : List Nat
  log : List LogEntry
  finalResponse : Option (Int × Bytes)
  deriving DecidableEq, Repr

/-- Trace bookkeeping for a loop iteration that ends in `continue`: one more
iteration, the `client.Do` count of this iteration, and the backoff slept
before the next attempt. -/
def contTrace (r : ReqResult × Trace) (attempt : Nat) (doCount : Nat) : ReqResult × Trace :=
  (r.1,
   { iterations := r.2.iterations + 1,
     doCalls := r.2.doCalls + doCount,
     backoffs := backoff attempt :: r.2.backoffs,
     log := r.2.log,
     finalResponse := r.2.finalResponse })

/-- Number of `client.Do` calls in one iteration. -/
def doCallCount (called : Bool) : Nat := if called then 1 else 0

/-- The retry loop of `doRequest`, one constructor case per remaining fuel.
The source loop is `for attempt := 0; attempt <= maxRetries; attempt++`;
the model starts at `attempt = 0` with fuel `(maxRetries + 1).toNat`, so an
iteration runs exactly while `attempt <= maxRetries`.  Each iteration:
run `attemptRequest`; on error, retry (backoff, continue) iff `shouldRetry`
says so, else `return nil, err`; on a response, `handleResponse`, returning
any read error; then retry a 5xx via `shouldRetry` (recording
`lastErr = fmt.Errorf("server error: %v", resp.Status)`), else log and
`return body, nil`. -/
def doRequestLoop (prep : Except GoError Unit)
    (transport : Nat → Except GoError GoResponse)
    (maxRetries : Int) (debug : Bool) :
    Nat → Nat → Option GoError → ReqResult × Trace
  | 0, _, lastErr =>
      (.failedAfterRetries lastErr,
       { iterations := 0, doCalls := 0, backoffs := [], log := [], finalResponse := none })
  | fuel + 1, attempt, _lastErr =>
      match attemptRequest prep transport attempt with
      | (.error e, called) =>
          if shouldRetry (some e) 0 attempt maxRetries then
            contTrace
              (doRequestLoop prep transport maxRetries debug fuel (attempt + 1) (some e))
              attempt (doCallCount called)
          else
            (.err e,
             { iterations := 1, doCalls := doCallCount called, backoffs := [],
               log := [], finalResponse := none })
      | (.ok resp, called) =>
          match handleResponse (some resp) with
          | .error readErr =>
              (.err readErr,
               { iterations := 1, doCalls := doCallCount called, backoffs := [],
                 log := [], finalResponse := none })
          | .ok (body, status) =>
              if shouldRetry none status attempt maxRetries then
                contTrace
                  (doRequestLoop prep transport maxRetries debug fuel (attempt + 1)
                    (some (.serverError resp.statusLine)))
                  attempt (doCallCount called)
              else
                (.ok body,
                 { iterations := 1, doCalls := doCallCount called, backoffs := [],
                   log := logResponse resp body debug,
                   finalResponse := some (status, body) })

/-- Model of `doRequest`: the retry loop entered with `attempt = 0`,
`lastErr = nil` and fuel `(options.Retries + 1).toNat` (zero iterations
when `Retries` is negative, matching `attempt <= maxRetries` failing at
once). -/
def doRequest (prep : Except GoError Unit)
    (transport : Nat → Except GoError GoResponse)
    (retries : Int) (debug : Bool) : ReqResult × Trace :=
  doRequestLoop prep transport retries debug (retries + 1).toNat 0 none

/-- Valid header-field byte per net/textproto's token table: ASCII letters,
digits, and the fifteen token punctuation characters. -/
def validHeaderFieldByte (c : Nat) : Bool :=
  (48 ≤ c && c ≤ 57) || (65 ≤ c && c ≤ 90) || (97 ≤ c && c ≤ 122) ||
  (c = 33 || c = 35 || c = 36 || c = 37 || c = 38 || c = 39 || c = 42 ||
   c = 43 || c = 45 || c = 46 || c = 94 || c = 95 || c = 96 || c = 124 || c = 126)

/-- ASCII uppercase of a character. -/
def asciiUpper (c : Char) : Char :=
  if 97 ≤ c.toNat ∧ c.toNat ≤ 122 then Char.ofNat (c.toNat - 32) else c

/-- ASCII lowercase of a character. -/
def asciiLower (c : Char) : Char :=
  if 65 ≤ c.toNat ∧ c.toNat ≤ 90 then Char.ofNat (c.toNat + 32) else c

/-- The canonicalisation pass of `textproto.CanonicalMIMEHeaderKey`: the
first byte and every byte following a `-` is uppercased, every other byte
lowercased. -/
def canonPass : Bool → List Char → List Char
  | _, [] => []
  | upper, c :: rest =>
      (if upper then asciiUpper c else asciiLower c) :: canonPass (c = '-') rest

/-- Model of `textproto.CanonicalMIMEHeaderKey`, applied by `Header.Add`
and `Header.Set`: a key containing an invalid byte is left unchanged,
otherwise it is canonicalised. -/
def canonicalKey (s : String) : String :=
  if s.data.all (fun c => validHeaderFieldByte c.toNat) then
    String.mk (canonPass true s.data)
  else s

/-- An `http.Header` viewed as an association list from canonical keys to
value slices.  Go's `http.Header` is `map[string][]string`; the model keeps
keys unique by construction (requests start from an empty header). -/
abbrev Header := List (String × List String)

/-- Appending a value under an (already canonical) key, as `Header.Add`
does via `textproto.MIMEHeader.Add`. -/
def addVal : Header → String → String → Header
  | [], ck, v => [(ck, [v])]
  | (k', vs) :: rest, ck, v =>
      if k' = ck then (k', vs ++ [v]) :: rest else (k', vs) :: addVal rest ck v

/-- Model of `req.Header.Add(k, v)`. -/
def headerAdd (h : Header) (k v : String) : Header := addVal h (canonicalKey k) v

/-- Replacing the values under an (already canonical) key with the single
value, as `Header.Set` does. -/
def setVal : Header → String → String → Header
  | [], ck, v => [(ck, [v])]
  | (k', vs) :: rest, ck, v =>
      if k' = ck then (k', [v]) :: rest else (k', vs) :: setVal rest ck v

/-- Model of `req.Header.Set(k, v)`. -/
def headerSet (h : Header) (k v : String) : Header := setVal h (canonicalKey k) v

/-- Lookup of the value slice under a canonical key (`h[ck]`), the empty
list standing for a missing entry (nil slice). -/
def headerValues : Header → String → List String
  | [], _ => []
  | (k', vs) :: rest, ck => if k' = ck then vs else headerValues rest ck

/-- The inner loop of `createRequest`'s header copy:
`for _, v := range values { req.Header.Add(k, v) }`. -/
def addValues (h : Header) (k : String) : List String → Header
  | [] => h
  | v :: rest => addValues (headerAdd h k v) k rest

/-- The outer loop of `createRequest`'s header copy:
`for k, values := range opt.Header { ... }`.  Go iterates the map in
unspecified order; the model fixes the order of the given list, and the
properties proved below are order-insensitive. -/
def addAllHeaders : Header → List (String × List String) → Header
  | h, [] => h
  | h, (k, vs) :: rest => addAllHeaders (addValues h k vs) rest

/-- Header construction of `createRequest`: `http.NewRequestWithContext`
starts with an empty header map, all caller headers are added, and when
`opt.Body != nil` the Content-Type header is set (forced) to
`application/json`. -/
def createRequestHeader (optHeader : List (String × List String)) (bodyPresent : Bool) : Header :=
  let h := addAllHeaders [] optHeader
  if bodyPresent then headerSet h "Content-Type" "application/json" else h

/-- Parsed query values, `url.Values`, as an association list from keys to
value slices.  The base URL's values are the result of `u.Query()`, i.e. of
parsing `u.RawQuery`. -/
abbrev Values := List (Bytes × List Bytes)

/-- Model of `url.Values.Set(k, v)`: the value slice under the key becomes
the one-element slice `[v]`. -/
def valuesSet : Values → Bytes → Bytes → Values
  | [], k, v => [(k, [v])]
  | (k', vs) :: rest, k, v =>
      if k' = k then (k', [v]) :: rest else (k', vs) :: valuesSet rest k v

/-- Lookup of the value slice under a key (`q[k]`), the empty list standing
for a missing entry. -/
def valuesGet : Values → Bytes → List Bytes
  | [], _ => []
  | (k', vs) :: rest, k => if k' = k then vs else valuesGet rest k

/-- The merge loop of `buildURL`:
`for k, v := range query { q.Set(k, v) }`.  Go iterates the query map in
unspecified order; keys of a Go map are pairwise distinct, under which the
final values are order-independent. -/
def mergeQuery : Values → List (Bytes × Bytes) → Values
  | q, [] => q
  | q, (k, v) :: rest => mergeQuery (valuesSet q k v) rest

/-- Byte kept verbatim by `url.QueryEscape`: ASCII alphanumerics and
`-`, `_`, `.`, `~` (everything else in a query component is escaped). -/
def isUnreservedQueryByte (c : Nat) : Bool :=
  (48 ≤ c && c ≤ 57) || (65 ≤ c && c ≤ 90) || (97 ≤ c && c ≤ 122) ||
  (c = 45 || c = 95 || c = 46 || c = 126)

/-- Uppercase hexadecimal digit byte, as used by net/url's escaper. -/
def hexUpper (n : Nat) : Nat := if n < 10 then 48 + n else 55 + n

/-- Escaping of a single byte by `url.QueryEscape`: unreserved bytes kept,
space becomes `+`, every other byte becomes `%XX`. -/
def escapeByte (c : Nat) : Bytes :=
  if isUnreservedQueryByte c then [c]
  else if c = 32 then [43]
  else [37, hexUpper (c / 16), hexUpper (c % 16)]

/-- Model of `url.QueryEscape` over the bytes of a string. -/
def queryEscape : Bytes → Bytes
  | [] => []
  | c :: rest => escapeByte c ++ queryEscape rest

/-- Lexicographic byte order used by `sort.Strings` on the keys in
`url.Values.Encode`. -/
def bytesLe : Bytes → Bytes → Bool
  | [], _ => true
  | _ :: _, [] => false
  | a :: as, b :: bs => if a < b then true else if b < a then false else bytesLe as bs

/-- Insertion into a key-sorted list of entries. -/
def insertByKey (e : Bytes × List Bytes) : Values → Values
  | [] => [e]
  | f :: rest => if bytesLe e.1 f.1 then e :: f :: rest else f :: insertByKey e rest

/-- Key sorting performed by `url.Values.Encode` (`sort.Strings(keys)`),
modelled as insertion sort on the entry list. -/
def sortByKey : Values → Values
  | [] => []
  | e :: rest => insertByKey e (sortByKey rest)

/-- One `k=v` piece written by `url.Values.Encode`:
`QueryEscape(k) + "=" + QueryEscape(v)` (61 is `=`). -/
def pairPiece (k v : Bytes) : Bytes := queryEscape k ++ [61] ++ queryEscape v

/-- The pieces contributed by one key: one per value, in slice order. -/
def piecesOf (k : Bytes) : List Bytes → List Bytes
  | [] => []
  | v :: rest => pairPiece k v :: piecesOf k rest

/-- All pieces of an already key-sorted value list. -/
def encodePiecesSorted : Values → List Bytes
  | [] => []
  | (k, vs) :: rest => piecesOf k vs ++ encodePiecesSorted rest

/-- The pieces of `url.Values.Encode`, keys visited in sorted order. -/
def encodePieces (vals : Values) : List Bytes := encodePiecesSorted (sortByKey vals)

/-- Joining pieces with `&` (38), as `Encode`'s buffer does (an ampersand
precedes every piece but the first; pieces are never empty). -/
def ampJoin : List Bytes → Bytes
  | [] => []
  | [p] => p
  | p :: rest => p ++ 38 :: ampJoin rest

/-- Model of `url.Values.Encode`, the string assigned to `u.RawQuery` by
`buildURL`. -/
def encodeValues (vals : Values) : Bytes := ampJoin (encodePieces vals)

/-- One-step unfolding of the loop when the attempt errors. -/
theorem doRequestLoop_succ_err (prep : Except GoError Unit)
    (transport : Nat → Except GoError GoResponse) (maxRetries : Int) (debug : Bool)
    (fuel attempt : Nat) (lastErr : Option GoError) (e : GoError) (called : Bool)
    (h : attemptRequest prep transport attempt = (.error e, called)) :
    doRequestLoop prep transport maxRetries debug (fuel + 1) attempt lastErr =
      if shouldRetry (some e) 0 attempt maxRetries then
        contTrace (doRequestLoop prep transport maxRetries debug fuel (attempt + 1) (some e))
          attempt (doCallCount called)
      else
        (.err e,
         { iterations := 1, doCalls := doCallCount called, backoffs := [],
           log := [], finalResponse := none }) := by
  simp only [doRequestLoop, h]

/-- One-step unfolding of the loop when the attempt yields a response whose
body fails to read. -/
theorem doRequestLoop_succ_readErr (prep : Except GoError Unit)
    (transport : Nat → Except GoError GoResponse) (maxRetries : Int) (debug : Bool)
    (fuel attempt : Nat) (lastErr : Option GoError) (resp : GoResponse) (called : Bool)
    (readErr : GoError)
    (h : attemptRequest prep transport attempt = (.ok resp, called))
    (hr : handleResponse (some resp) = .error readErr) :
    doRequestLoop prep transport maxRetries debug (fuel + 1) attempt lastErr =
      (.err readErr,
       { iterations := 1, doCalls := doCallCount called, backoffs := [],
         log := [], finalResponse := none }) := by
  simp only [doRequestLoop, h, hr]

/-- One-step unfolding of the loop when the attempt yields a response whose
body reads successfully. -/
theorem doRequestLoop_succ_resp (prep : Except GoError Unit)
    (transport : Nat → Except GoError GoResponse) (maxRetries : Int) (debug : Bool)
    (fuel attempt : Nat) (lastErr : Option GoError) (resp : GoResponse) (called : Bool)
    (body : Bytes) (status : Int)
    (h : attemptRequest prep transport attempt = (.ok resp, called))
    (hr : handleResponse (some resp) = .ok (body, status)) :
    doRequestLoop prep transport maxRetries debug (fuel + 1) attempt lastErr =
      if shouldRetry none status attempt maxRetries then
        contTrace
          (doRequestLoop prep transport maxRetries debug fuel (attempt + 1)
            (some (.serverError resp.statusLine)))
          attempt (doCallCount called)
      else
        (.ok body,
         { iterations := 1, doCalls := doCallCount called, backoffs := [],
           log := logResponse resp body debug,
           finalResponse := some (status, body) }) := by
  simp only [doRequestLoop, h, hr]

/-- No retry once the attempt counter has reached `maxRetries`. -/
theorem shouldRetry_last (err : Option GoError) (status : Int) (attempt maxRetries : Int)
    (h : maxRetries ≤ attempt) : shouldRetry err status attempt maxRetries = false := by
  unfold shouldRetry
  rw [if_pos (by omega)]

/-- A network-classified error with attempts remaining is retried. -/
theorem shouldRetry_net (e : GoError) (status : Int) (attempt maxRetries : Int)
    (h : attempt < maxRetries) (hn : e.isNetError = true) :
    shouldRetry (some e) status attempt maxRetries = true := by
  unfold shouldRetry
  rw [if_neg (by omega)]
  exact hn

/-- A 5xx status with attempts remaining is retried. -/
theorem shouldRetry_5xx (status : Int) (attempt maxRetries : Int)
    (h : attempt < maxRetries) (h5 : 500 ≤ status) (h5' : status ≤ 599) :
    shouldRetry none status attempt maxRetries = true := by
  unfold shouldRetry
  rw [if_neg (by omega)]
  simp [h5, h5']

/-- A status at most 499 is never retried, whatever the attempt budget. -/
theorem shouldRetry_non5xx (status : Int) (attempt maxRetries : Int)
    (h : status ≤ 499) : shouldRetry none status attempt maxRetries = false := by
  unfold shouldRetry
  split
  · rfl
  · have h5 : ¬ (500 ≤ status) := by omega
    simp [h5]

/-- Run of the loop in which every attempt fails with a network-classified
error: every fuel unit is consumed (one `client.Do` call each), a backoff
is slept between consecutive attempts, and the error of the final attempt
is returned raw. -/
theorem doRequestLoop_allNet (transport : Nat → Except GoError GoResponse)
    (e : Nat → GoError) (maxRetries : Int) (debug : Bool)
    (htr : ∀ n, transport n = .error (e n)) (hnet : ∀ n, (e n).isNetError = true) :
    ∀ (fuel attempt : Nat) (lastErr : Option GoError),
      maxRetries = (attempt : Int) + (fuel : Int) →
      doRequestLoop (.ok ()) transport maxRetries debug (fuel + 1) attempt lastErr =
        (.err (e (attempt + fuel)),
         { iterations := fuel + 1, doCalls := fuel + 1,
           backoffs := (List.range' attempt fuel).map backoff,
           log := [], finalResponse := none }) := by
  intro fuel
  induction fuel with
  | zero =>
    intro attempt lastErr hmax
    simp only [doRequestLoop, attemptRequest, htr]
    rw [shouldRetry_last _ _ _ _ (by omega)]
    simp [doCallCount, List.range']
  | succ f ih =>
    intro attempt lastErr hmax
    rw [doRequestLoop_succ_err (.ok ()) transport maxRetries debug (f + 1) attempt lastErr
          (e attempt) true (by simp [attemptRequest, htr])]
    rw [shouldRetry_net _ _ _ _ (by omega) (hnet attempt)]
    rw [if_pos rfl]
    rw [ih (attempt + 1) (some (e attempt)) (by push_cast at hmax ⊢; omega)]
    have harg : attempt + 1 + f = attempt + (f + 1) := by omega
    simp [contTrace, doCallCount, List.range', harg]

/-- Run of the loop in which every attempt yields a 5xx response whose body
reads successfully: every fuel unit is consumed, a backoff is slept between
consecutive attempts, and the body of the final attempt's response is
returned as a successful result together with its status in the trace. -/
theorem doRequestLoop_all5xx (transport : Nat → Except GoError GoResponse)
    (resp : Nat → GoResponse) (body : Nat → Bytes) (maxRetries : Int) (debug : Bool)
    (htr : ∀ n, transport n = .ok (resp n))
    (hread : ∀ n, (resp n).bodyRead = .ok (body n))
    (h5 : ∀ n, 500 ≤ (resp n).statusCode)
    (h5' : ∀ n, (resp n).statusCode ≤ 599) :
    ∀ (fuel attempt : Nat) (lastErr : Option GoError),
      maxRetries = (attempt : Int) + (fuel : Int) →
      doRequestLoop (.ok ()) transport maxRetries debug (fuel + 1) attempt lastErr =
        (.ok (body (attempt + fuel)),
         { iterations := fuel + 1, doCalls := fuel + 1,
           backoffs := (List.range' attempt fuel).map backoff,
           log := logResponse (resp (attempt + fuel)) (body (attempt + fuel)) debug,
           finalResponse := some ((resp (attempt + fuel)).statusCode, body (attempt + fuel)) }) := by
  intro fuel
  induction fuel with
  | zero =>
    intro attempt lastErr hmax
    simp only [doRequestLoop, attemptRequest, htr, handleResponse, hread]
    rw [shouldRetry_last _ _ _ _ (by omega)]
    simp [doCallCount, List.range']
  | succ f ih =>
    intro attempt lastErr hmax
    rw [doRequestLoop_succ_resp (.ok ()) transport maxRetries debug (f + 1) attempt lastErr
          (resp attempt) true (body attempt) (resp attempt).statusCode
          (by simp [attemptRequest, htr]) (by simp [handleResponse, hread])]
    rw [shouldRetry_5xx _ _ _ (by omega) (h5 attempt) (h5' attempt)]
    rw [if_pos rfl]
    rw [ih (attempt + 1) (some (.serverError (resp attempt).statusLine))
          (by push_cast at hmax ⊢; omega)]
    have harg : attempt + 1 + f = attempt + (f + 1) := by omega
    simp [contTrace, doCallCount, List.range', harg]

/-- As long as the fuel matches the remaining loop bound (the loop is
entered with `attempt = 0` and fuel `maxRetries + 1`), the loop never falls
through to the aggregated `request failed after retries` error: the final
iteration always returns, because `shouldRetry` refuses once
`attempt >= maxRetries`. -/
theorem doRequestLoop_no_exhaust (prep : Except GoError Unit)
    (transport : Nat → Except GoError GoResponse) (maxRetries : Int) (debug : Bool) :
    ∀ (fuel attempt : Nat) (lastErr le : Option GoError),
      maxRetries = (attempt : Int) + (fuel : Int) →
      (doRequestLoop prep transport maxRetries debug (fuel + 1) attempt lastErr).1 ≠
        .failedAfterRetries le := by
  intro fuel
  induction fuel with
  | zero =>
    intro attempt lastErr le hmax
    rcases hA : attemptRequest prep transport attempt with ⟨res, called⟩
    cases res with
    | error e =>
      rw [doRequestLoop_succ_err prep transport maxRetries debug 0 attempt lastErr e called hA]
      rw [shouldRetry_last _ _ _ _ (by omega)]
      simp
    | ok resp =>
      cases hH : handleResponse (some resp) with
      | error readErr =>
        rw [doRequestLoop_succ_readErr prep transport maxRetries debug 0 attempt lastErr
              resp called readErr hA hH]
        simp
      | ok bs =>
        obtain ⟨body, status⟩ := bs
        rw [doRequestLoop_succ_resp prep transport maxRetries debug 0 attempt lastErr
              resp called body status hA hH]
        rw [shouldRetry_last _ _ _ _ (by omega)]
        simp
  | succ f ih =>
    intro attempt lastErr le hmax
    rcases hA : attemptRequest prep transport attempt with ⟨res, called⟩
    cases res with
    | error e =>
      rw [doRequestLoop_succ_err prep transport maxRetries debug (f + 1) attempt lastErr
            e called hA]
      by_cases hs : shouldRetry (some e) 0 attempt maxRetries = true
      · simp only [hs, if_true]
        simp only [contTrace]
        exact ih (attempt + 1) (some e) le (by push_cast at hmax ⊢; omega)
      · simp only [Bool.not_eq_true] at hs
        simp [hs]
    | ok resp =>
      cases hH : handleResponse (some resp) with
      | error readErr =>
        rw [doRequestLoop_succ_readErr prep transport maxRetries debug (f + 1) attempt lastErr
              resp called readErr hA hH]
        simp
      | ok bs =>
        obtain ⟨body, status⟩ := bs
        rw [doRequestLoop_succ_resp prep transport maxRetries debug (f + 1) attempt lastErr
              resp called body status hA hH]
        by_cases hs : shouldRetry none status attempt maxRetries = true
        · simp only [hs, if_true]
          simp only [contTrace]
          exact ih (attempt + 1) (some (.serverError resp.statusLine)) le
            (by push_cast at hmax ⊢; omega)
        · simp only [Bool.not_eq_true] at hs
          simp [hs]

/-- The `Debug` flag influences only the emitted log: result, iteration
count, `client.Do` count, backoff schedule and the returned response are
identical for the two flag values. -/
theorem doRequestLoop_debug_agnostic (prep : Except GoError Unit)
    (transport : Nat → Except GoError GoResponse) (maxRetries : Int) :
    ∀ (fuel attempt : Nat) (lastErr : Option GoError),
      ((doRequestLoop prep transport maxRetries true fuel attempt lastErr).1 =
        (doRequestLoop prep transport maxRetries false fuel attempt lastErr).1) ∧
      ((doRequestLoop prep transport maxRetries true fuel attempt lastErr).2.iterations =
        (doRequestLoop prep transport maxRetries false fuel attempt lastErr).2.iterations) ∧
      ((doRequestLoop prep transport maxRetries true fuel attempt lastErr).2.doCalls =
        (doRequestLoop prep transport maxRetries false fuel attempt lastErr).2.doCalls) ∧
      ((doRequestLoop prep transport maxRetries true fuel attempt lastErr).2.backoffs =
        (doRequestLoop prep transport maxRetries false fuel attempt lastErr).2.backoffs) ∧
      ((doRequestLoop prep transport maxRetries true fuel attempt lastErr).2.finalResponse =
        (doRequestLoop prep transport maxRetries false fuel attempt lastErr).2.finalResponse) := by
  intro fuel
  induction fuel with
  | zero =>
    intro attempt lastErr
    simp [doRequestLoop]
  | succ f ih =>
    intro attempt lastErr
    rcases hA : attemptRequest prep transport attempt with ⟨res, called⟩
    cases res with
    | error e =>
      rw [doRequestLoop_succ_err prep transport maxRetries true f attempt lastErr e called hA,
          doRequestLoop_succ_err prep transport maxRetries false f attempt lastErr e called hA]
      by_cases hs : shouldRetry (some e) 0 attempt maxRetries = true
      · obtain ⟨h1, h2, h3, h4, h5⟩ := ih (attempt + 1) (some e)
        simp [hs, contTrace, h1, h2, h3, h4, h5]
      · simp only [Bool.not_eq_true] at hs
        simp [hs]
    | ok resp =>
      cases hH : handleResponse (some resp) with
      | error readErr =>
        rw [doRequestLoop_succ_readErr prep transport maxRetries true f attempt lastErr
              resp called readErr hA hH,
            doRequestLoop_succ_readErr prep transport maxRetries false f attempt lastErr
              resp called readErr hA hH]
        simp
      | ok bs =>
        obtain ⟨body, status⟩ := bs
        rw [doRequestLoop_succ_resp prep transport maxRetries true f attempt lastErr
              resp called body status hA hH,
            doRequestLoop_succ_resp prep transport maxRetries false f attempt lastErr
              resp called body status hA hH]
        by_cases hs : shouldRetry none status attempt maxRetries = true
        · obtain ⟨h1, h2, h3, h4, h5⟩ := ih (attempt + 1) (some (.serverError resp.statusLine))
          simp [hs, contTrace, h1, h2, h3, h4, h5]
        · simp only [Bool.not_eq_true] at hs
          simp [hs]

/-- Index lookup in the mapped backoff schedule of a run. -/
theorem range'_map_backoff_get :
    ∀ (n s j : Nat), j < n →
      ((List.range' s n).map backoff).get? j = some (backoff (s + j)) := by
  intro n
  induction n with
  | zero => intro s j h; omega
  | succ m ih =>
    intro s j h
    simp only [List.range', List.map_cons]
    cases j with
    | zero => simp
    | succ i =>
      simp only [List.get?_cons_succ]
      rw [ih (s + 1) i (by omega)]
      exact congrArg (fun x => some (backoff x)) (by omega)

/-- Claim C1: for every response with status in `[500, 599]`, if retries
remain the requester retries (so a run in which every attempt yields a 5xx
performs all `N + 1` attempts), and when retries are exhausted `doRequest`
returns the last 5xx response unmodified — its body as the successful
result and its status/body pair as the returned response — not an error. -/
theorem claim_C1_exhausted_5xx_returned_as_result
    (transport : Nat → Except GoError GoResponse)
    (resp : Nat → GoResponse) (body : Nat → Bytes) (N : Int) (debug : Bool)
    (hN : 0 ≤ N)
    (htr : ∀ n, transport n = .ok (resp n))
    (hread : ∀ n, (resp n).bodyRead = .ok (body n))
    (h5 : ∀ n, 500 ≤ (resp n).statusCode)
    (h5' : ∀ n, (resp n).statusCode ≤ 599) :
    (doRequest (.ok ()) transport N debug).1 = .ok (body N.toNat) ∧
    (doRequest (.ok ()) transport N debug).2.doCalls = N.toNat + 1 ∧
    (doRequest (.ok ()) transport N debug).2.finalResponse =
      some ((resp N.toNat).statusCode, body N.toNat) ∧
    500 ≤ (resp N.toNat).statusCode ∧ (resp N.toNat).statusCode ≤ 599 := by
  have hfuel : (N + 1).toNat = N.toNat + 1 := by omega
  unfold doRequest
  rw [hfuel]
  rw [doRequestLoop_all5xx transport resp body N debug htr hread h5 h5' N.toNat 0 none
        (by omega)]
  simp [h5, h5']

/-- Witness for C1 at a concrete run: two 503 responses with `Retries = 1`
exhaust the budget and the second body is returned as a result. -/
theorem claim_C1_witness :
    (doRequest (.ok ())
        (fun _ => .ok { statusCode := 503, statusLine := "503 Service Unavailable",
                        headers := [], bodyRead := .ok [104, 105] }) 1 false).1 =
      .ok [104, 105] ∧
    (doRequest (.ok ())
        (fun _ => .ok { statusCode := 503, statusLine := "503 Service Unavailable",
                        headers := [], bodyRead := .ok [104, 105] }) 1 false).2.doCalls = 2 ∧
    (doRequest (.ok ())
        (fun _ => .ok { statusCode := 503, statusLine := "503 Service Unavailable",
                        headers := [], bodyRead := .ok [104, 105] }) 1 false).2.finalResponse =
      some (503, [104, 105]) ∧
    (500 : Int) ≤ 503 ∧ (503 : Int) ≤ 599 :=
  claim_C1_exhausted_5xx_returned_as_result
    (fun _ => .ok { statusCode := 503, statusLine := "503 Service Unavailable",
                    headers := [], bodyRead := .ok [104, 105] })
    (fun _ => { statusCode := 503, statusLine := "503 Service Unavailable",
                headers := [], bodyRead := .ok [104, 105] })
    (fun _ => [104, 105]) 1 false (by decide)
    (fun _ => rfl) (fun _ => rfl)
    (fun _ => by show (500 : Int) ≤ 503; decide)
    (fun _ => by show (503 : Int) ≤ 599; decide)

/-- Claim C2: for `maxRetries = N >= 0`, a transport that fails every
attempt with a network-classified error causes exactly `N + 1` `client.Do`
invocations, one per loop iteration, before the call fails with an
error. -/
theorem claim_C2_permanent_transport_failure_attempts
    (transport : Nat → Except GoError GoResponse)
    (e : Nat → GoError) (N : Int) (debug : Bool)
    (hN : 0 ≤ N)
    (htr : ∀ n, transport n = .error (e n))
    (hnet : ∀ n, (e n).isNetError = true) :
    (doRequest (.ok ()) transport N debug).2.doCalls = N.toNat + 1 ∧
    (doRequest (.ok ()) transport N debug).2.iterations = N.toNat + 1 ∧
    (doRequest (.ok ()) transport N debug).1 = .err (e N.toNat) := by
  have hfuel : (N + 1).toNat = N.toNat + 1 := by omega
  unfold doRequest
  rw [hfuel]
  rw [doRequestLoop_allNet transport e N debug htr hnet N.toNat 0 none (by omega)]
  simp

/-- Witness for C2 at a concrete run: `Retries = 2` with a permanently
refused connection yields exactly three connection attempts. -/
theorem claim_C2_witness :
    (doRequest (.ok ()) (fun _ => .error (.transportError true "connection refused"))
        2 false).2.doCalls = 3 ∧
    (doRequest (.ok ()) (fun _ => .error (.transportError true "connection refused"))
        2 false).2.iterations = 3 ∧
    (doRequest (.ok ()) (fun _ => .error (.transportError true "connection refused"))
        2 false).1 = .err (.transportError true "connection refused") :=
  claim_C2_permanent_transport_failure_attempts
    (fun _ => .error (.transportError true "connection refused"))
    (fun _ => .transportError true "connection refused") 2 false (by decide)
    (fun _ => rfl) (fun _ => rfl)

/-- Claim C3: a response with status in `[200, 499]` is returned
immediately on the attempt that received it — body as the result, its
status/body recorded as the returned response — with no further loop
iteration, no further `client.Do` call and no backoff, whatever
`maxRetries` is. -/
theorem claim_C3_non5xx_returns_immediately
    (transport : Nat → Except GoError GoResponse) (maxRetries : Int) (debug : Bool)
    (resp : GoResponse) (body : Bytes) (k : Nat)
    (htr : transport k = .ok resp)
    (hread : resp.bodyRead = .ok body)
    (h2 : 200 ≤ resp.statusCode) (h4 : resp.statusCode ≤ 499) :
    (∀ (fuel : Nat) (lastErr : Option GoError),
      doRequestLoop (.ok ()) transport maxRetries debug (fuel + 1) k lastErr =
        (.ok body,
         { iterations := 1, doCalls := 1, backoffs := [],
           log := logResponse resp body debug,
           finalResponse := some (resp.statusCode, body) })) ∧
    (k = 0 → 0 ≤ maxRetries →
      doRequest (.ok ()) transport maxRetries debug =
        (.ok body,
         { iterations := 1, doCalls := 1, backoffs := [],
           log := logResponse resp body debug,
           finalResponse := some (resp.statusCode, body) })) := by
  have hstep : ∀ (fuel : Nat) (lastErr : Option GoError),
      doRequestLoop (.ok ()) transport maxRetries debug (fuel + 1) k lastErr =
        (.ok body,
         { iterations := 1, doCalls := 1, backoffs := [],
           log := logResponse resp body debug,
           finalResponse := some (resp.statusCode, body) }) := by
    intro fuel lastErr
    rw [doRequestLoop_succ_resp (.ok ()) transport maxRetries debug fuel k lastErr
          resp true body resp.statusCode
          (by simp [attemptRequest, htr]) (by simp [handleResponse, hread])]
    rw [shouldRetry_non5xx _ _ _ (by omega)]
    simp [doCallCount]
  refine ⟨hstep, ?_⟩
  intro hk hmr
  subst hk
  unfold doRequest
  have hfuel : (maxRetries + 1).toNat = maxRetries.toNat + 1 := by omega
  rw [hfuel]
  exact hstep maxRetries.toNat none

/-- Witness for C3 at a concrete run: a 200 response on the first attempt
with `Retries = 5` returns at once with no backoff. -/
theorem claim_C3_witness :
    doRequest (.ok ())
        (fun _ => .ok { statusCode := 200, statusLine := "200 OK",
                        headers := [], bodyRead := .ok [111, 107] }) 5 false =
      (.ok [111, 107],
       { iterations := 1, doCalls := 1, backoffs := [],
         log := logResponse { statusCode := 200, statusLine := "200 OK",
                              headers := [], bodyRead := .ok [111, 107] } [111, 107] false,
         finalResponse := some (200, [111, 107]) }) :=
  (claim_C3_non5xx_returns_immediately
    (fun _ => .ok { statusCode := 200, statusLine := "200 OK",
                    headers := [], bodyRead := .ok [111, 107] }) 5 false
    { statusCode := 200, statusLine := "200 OK", headers := [], bodyRead := .ok [111, 107] }
    [111, 107] 0 rfl rfl (by decide) (by decide)).2 rfl (by decide)

/-- Claim C4: the backoff slept before retry attempt `k` (`k >= 1`) is
exactly `300 ms * k` — shown both on the `backoff` function (called with
the failed attempt index `k - 1`) and on the recorded schedule of a run
that reaches attempt `k` — and the schedule is strictly increasing. -/
theorem claim_C4_linear_backoff
    (transport : Nat → Except GoError GoResponse)
    (e : Nat → GoError) (N : Int) (k : Nat) (debug : Bool)
    (hN : 0 ≤ N) (hk : 1 ≤ k) (hkN : (k : Int) ≤ N)
    (htr : ∀ n, transport n = .error (e n))
    (hnet : ∀ n, (e n).isNetError = true) :
    backoff (k - 1) = 300 * k ∧
    backoff (k - 1) < backoff k ∧
    ((doRequest (.ok ()) transport N debug).2.backoffs).get? (k - 1) = some (300 * k) := by
  have h1 : backoff (k - 1) = 300 * k := by unfold backoff; omega
  refine ⟨h1, by unfold backoff; omega, ?_⟩
  have hfuel : (N + 1).toNat = N.toNat + 1 := by omega
  have hb : (doRequest (.ok ()) transport N debug).2.backoffs =
      (List.range' 0 N.toNat).map backoff := by
    unfold doRequest
    rw [hfuel]
    rw [doRequestLoop_allNet transport e N debug htr hnet N.toNat 0 none (by omega)]
  rw [hb, range'_map_backoff_get N.toNat 0 (k - 1) (by omega), Nat.zero_add, h1]

/-- Witness for C4 at a concrete run: the backoff slept before attempt 2 of
a permanently failing run with `Retries = 3` is 600 ms. -/
theorem claim_C4_witness :
    backoff 1 = 600 ∧
    backoff 1 < backoff 2 ∧
    ((doRequest (.ok ()) (fun _ => .error (.transportError true "reset"))
        3 false).2.backoffs).get? 1 = some 600 :=
  claim_C4_linear_backoff (fun _ => .error (.transportError true "reset"))
    (fun _ => .transportError true "reset") 3 2 false
    (by decide) (by decide) (by decide) (fun _ => rfl) (fun _ => rfl)

/-- Claim C5 counterexample: with `Retries = 1` and a transport that always
fails with a network error, `doRequest` does not fail with the aggregated
`request failed after retries` error wrapping the last transport error —
it returns the last raw transport error directly. -/
theorem claim_C5_counterexample :
    (doRequest (.ok ()) (fun _ => .error (.transportError true "connection refused"))
        1 false).1 ≠
      .failedAfterRetries (some (.transportError true "connection refused")) ∧
    (doRequest (.ok ()) (fun _ => .error (.transportError true "connection refused"))
        1 false).1 =
      .err (.transportError true "connection refused") := by
  constructor
  · decide
  · rfl

/-- Claim C5 amended: when the retry loop exhausts all attempts on
transport errors (for any `Retries = N >= 0`), `doRequest` fails by
returning the final attempt's transport error directly (the early
`return nil, err`), not the aggregated wrapper. -/
theorem claim_C5_amended_raw_transport_error
    (transport : Nat → Except GoError GoResponse)
    (e : Nat → GoError) (N : Int) (debug : Bool)
    (hN : 0 ≤ N)
    (htr : ∀ n, transport n = .error (e n))
    (hnet : ∀ n, (e n).isNetError = true) :
    (doRequest (.ok ()) transport N debug).1 = .err (e N.toNat) ∧
    (doRequest (.ok ()) transport N debug).1 ≠
      .failedAfterRetries (some (e N.toNat)) := by
  have hfuel : (N + 1).toNat = N.toNat + 1 := by omega
  have hres : (doRequest (.ok ()) transport N debug).1 = .err (e N.toNat) := by
    unfold doRequest
    rw [hfuel]
    rw [doRequestLoop_allNet transport e N debug htr hnet N.toNat 0 none (by omega)]
    simp
  refine ⟨hres, ?_⟩
  rw [hres]
  simp

/-- Witness for the amended C5 at a concrete run: `Retries = 0`, one failed
attempt, raw error returned. -/
theorem claim_C5_witness :
    (doRequest (.ok ()) (fun _ => .error (.transportError true "timeout"))
        0 false).1 = .err (.transportError true "timeout") ∧
    (doRequest (.ok ()) (fun _ => .error (.transportError true "timeout"))
        0 false).1 ≠ .failedAfterRetries (some (.transportError true "timeout")) :=
  claim_C5_amended_raw_transport_error (fun _ => .error (.transportError true "timeout"))
    (fun _ => .transportError true "timeout") 0 false (by decide) (fun _ => rfl) (fun _ => rfl)

/-- Claim C8, evaluated at the failing input: a URL parse failure is a
`*url.Error`, which satisfies the `errors.As(err, &netErr)` test, so with
`Retries = 1` the loop performs a second iteration after a 300 ms backoff
instead of failing immediately — the claim's "no retry and no backoff
wait" is violated for URL parse errors.  Body serialization failures (not
network-classified) do fail immediately on the first iteration with no
backoff, whatever the retry budget. -/
theorem claim_C8_parse_error_is_retried :
    doRequest (.error (.urlParseError "net/url: invalid control character in URL"))
        (fun _ => .error (.transportError true "unreachable")) 1 false =
      (.err (.urlParseError "net/url: invalid control character in URL"),
       { iterations := 2, doCalls := 0, backoffs := [300], log := [], finalResponse := none }) ∧
    doRequest (.error (.jsonMarshalError "json: unsupported type: chan int"))
        (fun _ => .error (.transportError true "unreachable")) 5 false =
      (.err (.jsonMarshalError "json: unsupported type: chan int"),
       { iterations := 1, doCalls := 0, backoffs := [], log := [], finalResponse := none }) :=
  ⟨rfl, rfl⟩

/-- Claim C9: the `Debug` flag never affects control flow or return
values — result, iteration count, `client.Do` count, backoff schedule and
the returned response of `doRequest` coincide for the two flag values (only
the debug log differs). -/
theorem claim_C9_debug_flag_is_observationally_inert
    (prep : Except GoError Unit) (transport : Nat → Except GoError GoResponse)
    (retries : Int) :
    (doRequest prep transport retries true).1 = (doRequest prep transport retries false).1 ∧
    (doRequest prep transport retries true).2.iterations =
      (doRequest prep transport retries false).2.iterations ∧
    (doRequest prep transport retries true).2.doCalls =
      (doRequest prep transport retries false).2.doCalls ∧
    (doRequest prep transport retries true).2.backoffs =
      (doRequest prep transport retries false).2.backoffs ∧
    (doRequest prep transport retries true).2.finalResponse =
      (doRequest prep transport retries false).2.finalResponse := by
  unfold doRequest
  exact doRequestLoop_debug_agnostic prep transport retries (retries + 1).toNat 0 none

/-- Claim C10: with `Retries < 0` the loop body never runs — zero HTTP
attempts — and `doRequest` returns the `request failed after retries`
error wrapping the nil `lastErr`; and this is the only way that error
return is reached, since for `Retries >= 0` the final iteration always
returns directly. -/
theorem claim_C10_negative_retries_only_exhaustion
    (prep : Except GoError Unit) (transport : Nat → Except GoError GoResponse)
    (debug : Bool) (maxRetries : Int) :
    (maxRetries < 0 →
      doRequest prep transport maxRetries debug =
        (.failedAfterRetries none,
         { iterations := 0, doCalls := 0, backoffs := [], log := [], finalResponse := none })) ∧
    (0 ≤ maxRetries →
      ∀ le, (doRequest prep transport maxRetries debug).1 ≠ .failedAfterRetries le) := by
  constructor
  · intro hneg
    unfold doRequest
    have h0 : (maxRetries + 1).toNat = 0 := by omega
    rw [h0]
    simp [doRequestLoop]
  · intro hpos le
    unfold doRequest
    have hfuel : (maxRetries + 1).toNat = maxRetries.toNat + 1 := by omega
    rw [hfuel]
    exact doRequestLoop_no_exhaust prep transport maxRetries debug maxRetries.toNat 0 none le
      (by omega)

/-- Witness for C10 at a concrete input: `Retries = -1` performs zero
attempts and yields the aggregated error wrapping nil. -/
theorem claim_C10_witness :
    doRequest (.ok ()) (fun _ => .error (.transportError true "never")) (-1) false =
      (.failedAfterRetries none,
       { iterations := 0, doCalls := 0, backoffs := [], log := [], finalResponse := none }) :=
  (claim_C10_negative_retries_only_exhaustion (.ok ())
    (fun _ => .error (.transportError true "never")) false (-1)).1 (by decide)

/-- After `Set`, the key holds exactly the one set value. -/
theorem headerValues_setVal_self (h : Header) (ck v : String) :
    headerValues (setVal h ck v) ck = [v] := by
  induction h with
  | nil => simp [setVal, headerValues]
  | cons e rest ih =>
    obtain ⟨k', vs⟩ := e
    by_cases hk : k' = ck
    · simp [setVal, headerValues, hk]
    · simp [setVal, headerValues, hk, ih]

/-- `Set` leaves every other key untouched. -/
theorem headerValues_setVal_ne (h : Header) (ck v k2 : String) (hne : k2 ≠ ck) :
    headerValues (setVal h ck v) k2 = headerValues h k2 := by
  induction h with
  | nil => simp [setVal, headerValues, Ne.symm hne]
  | cons e rest ih =>
    obtain ⟨k', vs⟩ := e
    by_cases hk : k' = ck
    · subst hk
      simp [setVal, headerValues, Ne.symm hne]
    · simp [setVal, headerValues, hk, ih]

/-- `Add` appends the value at its key. -/
theorem headerValues_addVal_self (h : Header) (ck v : String) :
    headerValues (addVal h ck v) ck = headerValues h ck ++ [v] := by
  induction h with
  | nil => simp [addVal, headerValues]
  | cons e rest ih =>
    obtain ⟨k', vs⟩ := e
    by_cases hk : k' = ck
    · simp [addVal, headerValues, hk]
    · simp [addVal, headerValues, hk, ih]

/-- `Add` leaves every other key untouched. -/
theorem headerValues_addVal_ne (h : Header) (ck v k2 : String) (hne : k2 ≠ ck) :
    headerValues (addVal h ck v) k2 = headerValues h k2 := by
  induction h with
  | nil => simp [addVal, headerValues, Ne.symm hne]
  | cons e rest ih =>
    obtain ⟨k', vs⟩ := e
    by_cases hk : k' = ck
    · subst hk
      simp [addVal, headerValues, Ne.symm hne]
    · simp [addVal, headerValues, hk, ih]

/-- `Add` never removes a present value. -/
theorem mem_headerValues_headerAdd (h : Header) (k2 k3 v v3 : String)
    (hv : v ∈ headerValues h k2) : v ∈ headerValues (headerAdd h k3 v3) k2 := by
  unfold headerAdd
  by_cases hk : k2 = canonicalKey k3
  · subst hk
    rw [headerValues_addVal_self]
    exact List.mem_append_left _ hv
  · rw [headerValues_addVal_ne _ _ _ _ hk]
    exact hv

/-- The inner `Add` loop never removes a present value. -/
theorem mem_headerValues_addValues (k2 k3 v : String) :
    ∀ (vs : List String) (h : Header), v ∈ headerValues h k2 →
      v ∈ headerValues (addValues h k3 vs) k2 := by
  intro vs
  induction vs with
  | nil => intro h hv; exact hv
  | cons v0 rest ih =>
    intro h hv
    exact ih (headerAdd h k3 v0) (mem_headerValues_headerAdd h k2 k3 v v0 hv)

/-- The inner `Add` loop attaches every supplied value under the canonical
key. -/
theorem mem_headerValues_addValues_self (k v : String) :
    ∀ (vs : List String) (h : Header), v ∈ vs →
      v ∈ headerValues (addValues h k vs) (canonicalKey k) := by
  intro vs
  induction vs with
  | nil => intro h hv; cases hv
  | cons v0 rest ih =>
    intro h hv
    rcases List.mem_cons.mp hv with heq | hmem
    · subst heq
      refine mem_headerValues_addValues _ _ _ rest (headerAdd h k v) ?_
      unfold headerAdd
      rw [headerValues_addVal_self]
      simp
    · exact ih (headerAdd h k v0) hmem

/-- The outer copy loop never removes a present value. -/
theorem mem_headerValues_addAllHeaders (k2 v : String) :
    ∀ (H : List (String × List String)) (h : Header), v ∈ headerValues h k2 →
      v ∈ headerValues (addAllHeaders h H) k2 := by
  intro H
  induction H with
  | nil => intro h hv; exact hv
  | cons e rest ih =>
    intro h hv
    obtain ⟨k0, vs0⟩ := e
    exact ih (addValues h k0 vs0) (mem_headerValues_addValues _ _ _ vs0 h hv)

/-- The copy loop of `createRequest` attaches every caller-supplied value
under the canonical form of its key. -/
theorem mem_headerValues_addAll_of_entry (k v : String) (vs : List String) :
    ∀ (H : List (String × List String)) (h : Header), (k, vs) ∈ H → v ∈ vs →
      v ∈ headerValues (addAllHeaders h H) (canonicalKey k) := by
  intro H
  induction H with
  | nil => intro h hk _; cases hk
  | cons e rest ih =>
    intro h hk hv
    rcases List.mem_cons.mp hk with heq | hmem
    · subst heq
      exact mem_headerValues_addAllHeaders _ _ rest (addValues h k vs)
        (mem_headerValues_addValues_self k v vs h hv)
    · obtain ⟨k0, vs0⟩ := e
      exact ih (addValues h k0 vs0) hmem hv

/-- Claim C6: when `options.Body` is non-nil, the built request's
Content-Type header equals exactly `application/json`, even if the caller
supplied a different Content-Type; every caller-supplied header under any
other key is untouched by that forcing and carries each supplied value. -/
theorem claim_C6_body_forces_json_content_type
    (H : List (String × List String)) (k v : String) (vs : List String)
    (hk : (k, vs) ∈ H) (hv : v ∈ vs) (hne : canonicalKey k ≠ "Content-Type") :
    headerValues (createRequestHeader H true) "Content-Type" = ["application/json"] ∧
    headerValues (createRequestHeader H true) (canonicalKey k) =
      headerValues (addAllHeaders [] H) (canonicalKey k) ∧
    v ∈ headerValues (createRequestHeader H true) (canonicalKey k) := by
  have hct : canonicalKey "Content-Type" = "Content-Type" := by decide
  have hcr : createRequestHeader H true =
      setVal (addAllHeaders [] H) "Content-Type" "application/json" := by
    unfold createRequestHeader headerSet
    rw [hct]
    simp
  rw [hcr]
  refine ⟨headerValues_setVal_self _ _ _, headerValues_setVal_ne _ _ _ _ hne, ?_⟩
  rw [headerValues_setVal_ne _ _ _ _ hne]
  exact mem_headerValues_addAll_of_entry k v vs H [] hk hv

/-- Witness for C6 at a concrete header map: a caller-supplied
`content-type: text/plain` is overwritten with `application/json` while
`x-token: abc` survives under its canonical key. -/
theorem claim_C6_witness :
    headerValues
        (createRequestHeader [("x-token", ["abc"]), ("content-type", ["text/plain"])] true)
        "Content-Type" = ["application/json"] ∧
    headerValues
        (createRequestHeader [("x-token", ["abc"]), ("content-type", ["text/plain"])] true)
        (canonicalKey "x-token") =
      headerValues (addAllHeaders [] [("x-token", ["abc"]), ("content-type", ["text/plain"])])
        (canonicalKey "x-token") ∧
    "abc" ∈ headerValues
        (createRequestHeader [("x-token", ["abc"]), ("content-type", ["text/plain"])] true)
        (canonicalKey "x-token") :=
  claim_C6_body_forces_json_content_type
    [("x-token", ["abc"]), ("content-type", ["text/plain"])]
    "x-token" "abc" ["abc"] (by decide) (by decide) (by decide)

/-- After `Set`, the key holds exactly the one set value. -/
theorem valuesGet_valuesSet_self (q : Values) (k v : Bytes) :
    valuesGet (valuesSet q k v) k = [v] := by
  induction q with
  | nil => simp [valuesSet, valuesGet]
  | cons e rest ih =>
    obtain ⟨k', vs⟩ := e
    by_cases hk : k' = k
    · simp [valuesSet, valuesGet, hk]
    · simp [valuesSet, valuesGet, hk, ih]

/-- `Set` leaves every other key untouched. -/
theorem valuesGet_valuesSet_ne (q : Values) (k v k2 : Bytes) (hne : k2 ≠ k) :
    valuesGet (valuesSet q k v) k2 = valuesGet q k2 := by
  induction q with
  | nil => simp [valuesSet, valuesGet, Ne.symm hne]
  | cons e rest ih =>
    obtain ⟨k', vs⟩ := e
    by_cases hk : k' = k
    · subst hk
      simp [valuesSet, valuesGet, Ne.symm hne]
    · simp [valuesSet, valuesGet, hk, ih]

/-- Merging entries whose keys all differ from `k` does not change `k`'s
values. -/
theorem mergeQuery_get_of_not_mem (k : Bytes) :
    ∀ (query : List (Bytes × Bytes)) (q : Values), (∀ p ∈ query, p.1 ≠ k) →
      valuesGet (mergeQuery q query) k = valuesGet q k := by
  intro query
  induction query with
  | nil => intro q _; rfl
  | cons e rest ih =>
    intro q hne
    obtain ⟨k0, v0⟩ := e
    have hk0 : k0 ≠ k := hne (k0, v0) (by simp)
    simp only [mergeQuery]
    rw [ih (valuesSet q k0 v0) (fun p hp => hne p (by simp [hp]))]
    exact valuesGet_valuesSet_ne q k0 v0 k (Ne.symm hk0)

/-- With pairwise-distinct keys (a Go map guarantee), the merge loop leaves
exactly the supplied value under each supplied key. -/
theorem mergeQuery_get_self (k v : Bytes) :
    ∀ (query : List (Bytes × Bytes)) (q : Values),
      query.Pairwise (fun a b => a.1 ≠ b.1) → (k, v) ∈ query →
      valuesGet (mergeQuery q query) k = [v] := by
  intro query
  induction query with
  | nil => intro q _ hkv; cases hkv
  | cons e rest ih =>
    intro q hdist hkv
    obtain ⟨hhead, htail⟩ := List.pairwise_cons.mp hdist
    obtain ⟨k0, v0⟩ := e
    rcases List.mem_cons.mp hkv with heq | hmem
    · injection heq with hk0 hv0
      subst hk0
      subst hv0
      have hrest : ∀ p ∈ rest, p.1 ≠ k := fun p hp => Ne.symm (hhead p hp)
      simp only [mergeQuery]
      rw [mergeQuery_get_of_not_mem k rest (valuesSet q k v) hrest]
      exact valuesGet_valuesSet_self q k v
    · exact ih (valuesSet q k0 v0) htail hmem

/-- A key with a non-empty value slice is an entry of the list. -/
theorem mem_of_valuesGet (k : Bytes) (vs : List Bytes) :
    ∀ (l : Values), valuesGet l k = vs → vs ≠ [] → (k, vs) ∈ l := by
  intro l
  induction l with
  | nil =>
    intro hg hne
    exact absurd hg.symm (by simpa [valuesGet] using hne)
  | cons e rest ih =>
    intro hg hne
    obtain ⟨k0, vs0⟩ := e
    by_cases hk : k0 = k
    · subst hk
      simp only [valuesGet, if_pos rfl] at hg
      subst hg
      simp
    · simp only [valuesGet, if_neg hk] at hg
      exact List.mem_cons_of_mem _ (ih hg hne)

/-- Insertion keeps old members and adds the new one. -/
theorem mem_insertByKey (x e : Bytes × List Bytes) :
    ∀ (l : Values), (x = e ∨ x ∈ l) → x ∈ insertByKey e l := by
  intro l
  induction l with
  | nil =>
    intro hx
    rcases hx with hx | hx
    · simp [insertByKey, hx]
    · cases hx
  | cons f rest ih =>
    intro hx
    simp only [insertByKey]
    by_cases hle : bytesLe e.1 f.1 = true
    · rcases hx with hx | hx
      · simp [hle, hx]
      · simp [hle, hx]
    · simp only [hle, if_false, Bool.false_eq_true]
      rcases hx with hx | hx
      · exact List.mem_cons_of_mem _ (ih (Or.inl hx))
      · rcases List.mem_cons.mp hx with hx | hx
        · simp [hx]
        · exact List.mem_cons_of_mem _ (ih (Or.inr hx))

/-- Sorting preserves membership. -/
theorem mem_sortByKey (x : Bytes × List Bytes) :
    ∀ (l : Values), x ∈ l → x ∈ sortByKey l := by
  intro l
  induction l with
  | nil => intro hx; cases hx
  | cons e rest ih =>
    intro hx
    rcases List.mem_cons.mp hx with hx | hx
    · exact mem_insertByKey x e (sortByKey rest) (Or.inl hx)
    · exact mem_insertByKey x e (sortByKey rest) (Or.inr (ih hx))

/-- Each value of a key yields its piece. -/
theorem mem_piecesOf (k v : Bytes) :
    ∀ (vsl : List Bytes), v ∈ vsl → pairPiece k v ∈ piecesOf k vsl := by
  intro vsl
  induction vsl with
  | nil => intro hv; cases hv
  | cons v0 rest ih =>
    intro hv
    rcases List.mem_cons.mp hv with hv | hv
    · simp [piecesOf, hv]
    · exact List.mem_cons_of_mem _ (ih hv)

/-- Every entry's value contributes its escaped piece. -/
theorem mem_encodePiecesSorted (k v : Bytes) (vsl : List Bytes) :
    ∀ (vals : Values), (k, vsl) ∈ vals → v ∈ vsl →
      pairPiece k v ∈ encodePiecesSorted vals := by
  intro vals
  induction vals with
  | nil => intro hm _; cases hm
  | cons e rest ih =>
    intro hm hv
    obtain ⟨k0, vs0⟩ := e
    simp only [encodePiecesSorted]
    rcases List.mem_cons.mp hm with hm | hm
    · injection hm with hk0 hvs0
      subst hk0
      subst hvs0
      exact List.mem_append_left _ (mem_piecesOf k v vsl hv)
    · exact List.mem_append_right _ (ih hm hv)

/-- A piece of the list is a contiguous segment of the ampersand join. -/
theorem ampJoin_contains (p : Bytes) :
    ∀ (ps : List Bytes), p ∈ ps → ∃ s t, ampJoin ps = s ++ p ++ t := by
  intro ps
  induction ps with
  | nil => intro hp; cases hp
  | cons q rest ih =>
    intro hp
    cases rest with
    | nil =>
      have hq : p = q := by simpa using hp
      exact ⟨[], [], by simp [ampJoin, hq]⟩
    | cons r rest2 =>
      rcases List.mem_cons.mp hp with hq | hp2
      · exact ⟨[], 38 :: ampJoin (r :: rest2), by simp [ampJoin, hq]⟩
      · obtain ⟨s, t, he⟩ := ih hp2
        exact ⟨q ++ 38 :: s, t, by simp [ampJoin, he]⟩

/-- Claim C7: for a parseable base URL, every query key/value pair from the
options appears URL-encoded (as `QueryEscape(k)=QueryEscape(v)`) in the
final query string produced by `buildURL`, and a key already present in
the base URL's query is overwritten with the options value. -/
theorem claim_C7_query_encoded_and_overwritten
    (base : Values) (query : List (Bytes × Bytes)) (k v : Bytes)
    (hdist : query.Pairwise (fun a b => a.1 ≠ b.1))
    (hkv : (k, v) ∈ query) :
    valuesGet (mergeQuery base query) k = [v] ∧
    pairPiece k v ∈ encodePieces (mergeQuery base query) ∧
    ∃ s t, encodeValues (mergeQuery base query) = s ++ pairPiece k v ++ t := by
  have h1 : valuesGet (mergeQuery base query) k = [v] :=
    mergeQuery_get_self k v query base hdist hkv
  have hmem : (k, [v]) ∈ mergeQuery base query :=
    mem_of_valuesGet k [v] (mergeQuery base query) h1 (by simp)
  have h2 : pairPiece k v ∈ encodePieces (mergeQuery base query) :=
    mem_encodePiecesSorted k v [v] (sortByKey (mergeQuery base query))
      (mem_sortByKey _ _ hmem) (by simp)
  exact ⟨h1, h2, ampJoin_contains _ _ h2⟩

/-- Witness for C7 at a concrete input: base query `a=b`, options query
`a` to `"c "`; the merged value is `["c "]` and the escaped piece `a=c+`
appears among the encoded pieces. -/
theorem claim_C7_witness :
    valuesGet (mergeQuery [([97], [[98]])] [([97], [99, 32])]) [97] = [[99, 32]] ∧
    pairPiece [97] [99, 32] ∈ encodePieces (mergeQuery [([97], [[98]])] [([97], [99, 32])]) :=
  ⟨(claim_C7_query_encoded_and_overwritten [([97], [[98]])] [([97], [99, 32])]
      [97] [99, 32] (by decide) (by decide)).1,
   (claim_C7_query_encoded_and_overwritten [([97], [[98]])] [([97], [99, 32])]
      [97] [99, 32] (by decide) (by decide)).2.1⟩

end Requests
